import Mathlib

/-!
Verification of the tally-filter and concurrent-append core of the
exasmr/openmc repository, as a shallow embedding in Lean 4.

Numeric conventions used throughout:
* C++ `int`/`int32_t` values are embedded as `Int` (overflow is irrelevant to
  the properties considered here, which involve small sizes and indices).
* C++ `double` values are embedded as `ℚ`; all operations appearing in the
  verified code paths (comparison, subtraction, multiplication, division,
  linear interpolation) are exact in `ℚ`, except for the one square root in
  the Zernike radius test, which is handled through an explicitly proved
  equivalence with its squared form (see `sqrt_div_le_one_iff`).
* The uninitialized backing storage `new T[capacity]` of `SharedArray` is
  embedded as a list of `Option T` of length `capacity`, all `none`.
-/

namespace OpenMC

/-! ## SharedArray (include/openmc/shared_array.h)

An array that can be appended to in a thread safe manner by use of atomics.
Fields mirror `data_`, `size_` and `capacity_` of the C++ class; the device
mirror pointer `device_data_` plays no role in the verified properties and is
omitted. -/

structure SharedArray (T : Type) where
  data_ : List (Option T)
  size_ : Int
  capacity_ : Int

/-- Embedding of the constructor `SharedArray(int capacity)`: a zero size
container with space to hold `capacity` elements (`data_ = new T[capacity]`,
uninitialized storage embedded as `none` entries). -/
def SharedArray.init (T : Type) (capacity : Int) : SharedArray T :=
  { data_ := List.replicate capacity.toNat none
    size_ := 0
    capacity_ := capacity }

/-- Embedding of `SharedArray::thread_safe_append` (shared_array.h:92-114).
The atomic capture `idx = size_++` is followed by the bounds test
`idx >= capacity_`; on overflow the size is clamped to `capacity_` and `-1`
is returned, otherwise the value is stored at `idx` and `idx` is returned. -/
def SharedArray.thread_safe_append {T : Type} (s : SharedArray T) (value : T) :
    Int × SharedArray T :=
  let idx := s.size_
  let s1 : SharedArray T := { s with size_ := s.size_ + 1 }
  if idx ≥ s1.capacity_ then
    (-1, { s1 with size_ := s1.capacity_ })
  else
    (idx, { s1 with data_ := s1.data_.set idx.toNat (some value) })

/-- Embedding of `SharedArray::reserve` (shared_array.h:73-80): if the
requested capacity does not exceed the current one, do nothing; otherwise
point `data_` at a freshly allocated array (the old elements are not copied)
and update `capacity_`. `size_` is not changed. -/
def SharedArray.reserve {T : Type} (s : SharedArray T) (capacity : Int) :
    SharedArray T :=
  if capacity ≤ s.capacity_ then
    s
  else
    { s with data_ := List.replicate capacity.toNat none
             capacity_ := capacity }

/-- Sequential driver folding `thread_safe_append` over a list of values,
counting the calls that report failure (return `-1`). This models a sequence
of append calls, in call order. -/
def SharedArray.appendAll {T : Type} :
    List T → SharedArray T → Nat × SharedArray T
  | [], s => (0, s)
  | v :: vs, s =>
    let r := s.thread_safe_append v
    let rest := SharedArray.appendAll vs r.2
    ((if r.1 = -1 then 1 else 0) + rest.1, rest.2)

end OpenMC

namespace OpenMC

/-! ## Filter data model (include/openmc/tallies/filter.h and src/tallies)

The repository uses one flat `Filter` class carrying a type tag
(`FilterType`) plus the union of all variants' configuration fields; the
type-specific operations are free-standing members selected by the tag.
Only the fields read or written by the verified operations are carried
here, with the source's names (`yy_` is the Zernike center y coordinate,
`y_` the energy-function response vector, as in the .cpp files). -/

inductive FilterType where
  | AzimuthalFilter
  | CellFilter
  | CellInstanceFilter
  | CellbornFilter
  | CellFromFilter
  | DelayedGroupFilter
  | DistribcellFilter
  | EnergyFilter
  | EnergyFunctionFilter
  | LegendreFilter
  | MaterialFilter
  | MeshFilter
  | MeshSurfaceFilter
  | MuFilter
  | ParticleFilter
  | PolarFilter
  | SphericalHarmonicsFilter
  | SpatialLegendreFilter
  | SurfaceFilter
  | UniverseFilter
  | ZernikeFilter
  | ZernikeRadialFilter
  deriving DecidableEq

structure Filter where
  type_ : FilterType
  n_bins_ : Int
  energy_ : List ℚ
  y_ : List ℚ
  x_ : ℚ
  yy_ : ℚ
  r_ : ℚ
  order_ : Int
  mesh_ : Int
  deriving DecidableEq

instance : Inhabited FilterType := ⟨FilterType.AzimuthalFilter⟩

instance : Inhabited Filter :=
  ⟨{ type_ := default, n_bins_ := 0, energy_ := [], y_ := [], x_ := 0,
     yy_ := 0, r_ := 0, order_ := 0, mesh_ := 0 }⟩

/-- Modelled from the spec: `FilterMatch` (filter_match.h is not under
src/). Per §4.2 it is an ordered sequence of (bin, weight) pairs exposing
the pairs in insertion order; the fixed capacity bound plays no role in the
claims considered here. -/
abbrev FilterMatch := List (Int × ℚ)

/-- Modelled from the spec: `FilterMatch::push_back(bin, weight)` appends
one pair (§4.2). -/
def push_back (m : FilterMatch) (bin : Int) (weight : ℚ) : FilterMatch :=
  m ++ [(bin, weight)]

/-! ## Incident-energy-function filter (src/tallies/filter_energyfunc.cpp) -/

/-- Outcome of an operation that can end by `fatal_error` (process abort
with a message) or by a thrown C++ exception. -/
inductive DataErr where
  | fatal : String → DataErr
  | thrown : String → DataErr
  deriving DecidableEq

/-- The loop guard `i > 0 && energy[i] <= energy[i-1]` of `Filter::set_data`
(filter_energyfunc.cpp:47-49), with `prev` the previously pushed energy
value (none on the first iteration). -/
def violates_increase (prev : Option ℚ) (e : ℚ) : Bool :=
  match prev with
  | some p => decide (e ≤ p)
  | none => false

/-- The copy loop of `Filter::set_data` (filter_energyfunc.cpp:47-53): for
each (energy, y) pair in order, first test the monotonicity guard and throw
`std::runtime_error` if it fires (leaving the partially filled arrays in
place), otherwise push both values and continue. -/
def set_data_loop : Filter → Option ℚ → List (ℚ × ℚ) → Filter × Option DataErr
  | f, _, [] => (f, none)
  | f, prev, (e, yv) :: rest =>
    if violates_increase prev e then
      (f, some (DataErr.thrown "Energy bins must be monotonically increasing."))
    else
      set_data_loop { f with energy_ := f.energy_ ++ [e], y_ := f.y_ ++ [yv] }
        (some e) rest

/-- Embedding of `Filter::set_data` (filter_energyfunc.cpp:33-54): a size
mismatch is a `fatal_error` (before any mutation); otherwise both arrays
are cleared and refilled pairwise by `set_data_loop` (the `reserve` calls
have no observable effect). -/
def set_data (f : Filter) (energy y : List ℚ) : Filter × Option DataErr :=
  if energy.length ≠ y.length then
    (f, some (DataErr.fatal "Energy grid and y values are not consistent"))
  else
    set_data_loop { f with energy_ := [], y_ := [] } none (energy.zip y)

/-- The pairs actually consumed by `set_data_loop` before the monotonicity
guard fires (all of them when it never fires). Used to state what the
partially mutated filter holds after a failed `set_data`. -/
def keptPairs (prev : Option ℚ) : List (ℚ × ℚ) → List (ℚ × ℚ)
  | [] => []
  | (e, yv) :: rest =>
    if violates_increase prev e then []
    else (e, yv) :: keptPairs (some e) rest

/-- Length of the longest prefix of `es` that is strictly increasing when
appended after `prev`; equals the number of loop iterations `set_data`
completes before throwing (or the full length when it does not throw). -/
def incFrom (prev : Option ℚ) : List ℚ → Nat
  | [] => 0
  | e :: rest =>
    if violates_increase prev e then 0 else incFrom (some e) rest + 1

/-- Modelled from the spec: `lower_bound_index` (openmc/search.h is not
under src/). Per §4.1 the filter locates the enclosing interval of the
incoming energy via binary search; this executable rendering scans for the
same enclosing-interval index (the result, not the search strategy, is
what the caller depends on): the index i of the interval [es_i, es_(i+1)]
containing E, the last interval being used for E at or beyond the last
grid point. -/
def lower_bound_index : List ℚ → ℚ → Nat
  | [], _ => 0
  | [_], _ => 0
  | [_, _], _ => 0
  | _ :: b :: c :: rest, E =>
    if E < b then 0 else lower_bound_index (b :: c :: rest) E + 1

/-- Embedding of `Filter::EnergyFunctionFilter_get_all_bins`
(filter_energyfunc.cpp:56-72). The particle state enters only through the
pre-collision energy `p.E_last_`, passed directly; `energy_.front()` and
`energy_.back()` are elements 0 and size-1. Unchecked vector indexing is
rendered with `getD` (the theorems' hypotheses keep every index in
bounds). -/
def EnergyFunctionFilter_get_all_bins (f : Filter) (E_last : ℚ)
    (m : FilterMatch) : FilterMatch :=
  if f.energy_.getD 0 0 ≤ E_last ∧
      E_last ≤ f.energy_.getD (f.energy_.length - 1) 0 then
    let i := lower_bound_index f.energy_ E_last
    let fct := (E_last - f.energy_.getD i 0) /
      (f.energy_.getD (i + 1) 0 - f.energy_.getD i 0)
    push_back m 0 ((1 - fct) * f.y_.getD i 0 + fct * f.y_.getD (i + 1) 0)
  else m

/-! ## Zernike filters (src/tallies/filter_zernike.cpp) -/

/-- Embedding of `Filter::ZernikeFilter_set_order`
(filter_zernike.cpp:77-85): a negative order throws
`std::invalid_argument` before any mutation; otherwise `order_` and
`n_bins_` are set. C++ `int` division truncates toward zero, hence
`Int.tdiv`. -/
def ZernikeFilter_set_order (f : Filter) (order : Int) :
    Except String Filter :=
  if order < 0 then
    Except.error "Zernike order must be non-negative."
  else
    Except.ok { f with order_ := order
                       n_bins_ := Int.tdiv ((order + 1) * (order + 2)) 2 }

/-- Embedding of `Filter::ZernikeRadialFilter_set_order`
(filter_zernike.cpp:118-123): delegates to `ZernikeFilter_set_order`, then
overwrites `n_bins_` with `order / 2 + 1`. -/
def ZernikeRadialFilter_set_order (f : Filter) (order : Int) :
    Except String Filter :=
  match ZernikeFilter_set_order f order with
  | Except.error msg => Except.error msg
  | Except.ok f2 => Except.ok { f2 with n_bins_ := Int.tdiv order 2 + 1 }

/-- Embedding of `Filter::ZernikeFilter_get_all_bins`
(filter_zernike.cpp:31-51). The particle position enters only through
`p.r().x` and `p.r().y`, passed as `px`, `py`. The basis values written by
`calc_zn` (math_functions.cpp, not under src/) are abstracted as the
function `zn`. The source computes `r = sqrt(x*x + y*y) / r_` and tests
`r <= 1.0`; that test is embedded in its squared form
`x*x + y*y ≤ r_*r_`, which is equivalent for a positive configured radius
(proved in `sqrt_div_le_one_iff`); the claims' theorems assume `0 < r_`
and are stated with the source's square-root form over `ℝ`. -/
def ZernikeFilter_get_all_bins (f : Filter) (px py : ℚ) (zn : Nat → ℚ)
    (m : FilterMatch) : FilterMatch :=
  let x := px - f.x_
  let y := py - f.yy_
  if x * x + y * y ≤ f.r_ * f.r_ then
    (List.range f.n_bins_.toNat).foldl
      (fun acc i => push_back acc (Int.ofNat i) (zn i)) m
  else m

/-- Embedding of `Filter::ZernikeRadialFilter_get_all_bins`
(filter_zernike.cpp:91-110); identical geometry test, with the radial-only
basis values of `calc_zn_rad` abstracted as `zn`. -/
def ZernikeRadialFilter_get_all_bins (f : Filter) (px py : ℚ) (zn : Nat → ℚ)
    (m : FilterMatch) : FilterMatch :=
  let x := px - f.x_
  let y := py - f.yy_
  if x * x + y * y ≤ f.r_ * f.r_ then
    (List.range f.n_bins_.toNat).foldl
      (fun acc i => push_back acc (Int.ofNat i) (zn i)) m
  else m

/-- Model of the XML configuration node for a Zernike filter: which of the
required fields are present, and their values. -/
structure ZernikeXmlNode where
  has_order : Bool
  has_x : Bool
  has_y : Bool
  has_r : Bool
  order : Int
  x : ℚ
  y : ℚ
  r : ℚ

/-- Embedding of `Filter::ZernikeFilter_from_xml`
(filter_zernike.cpp:21-29). The function begins with an unconditional
`fatal_error`, so it fails on every input; the statements that would read
`order`, `x`, `y`, `r` from the node and store them are unreachable. -/
def ZernikeFilter_from_xml (_f : Filter) (_node : ZernikeXmlNode) :
    Except String Filter :=
  Except.error
    "Zernike filters not yet supported on device (due to calc_zn() dynamic memory allocation)."

/-! ## Narrow C API (filter_zernike.cpp, filter_energyfunc.cpp,
filter_mesh.cpp)

The global filter registry `model::tally_filters` is carried as an
explicit `Model` value. Output pointers of the C functions are rendered by
a `Bool` nullness flag per pointer together with `Option` values recording
what was written through each pointer (`none` = never written); a
dereference of a null pointer is the distinguished outcome `nullDeref`. -/

structure Model where
  tally_filters : List Filter
  meshes_size : Int
  deriving DecidableEq

/-- Modelled from the spec: distinct integer error codes of the narrow API
(openmc/capi.h is not under src/); the values are the public OpenMC
codes, and only their being distinct and nonzero matters here. -/
def OPENMC_E_OUT_OF_BOUNDS : Int := -3

/-- Modelled from the spec: see `OPENMC_E_OUT_OF_BOUNDS`. -/
def OPENMC_E_INVALID_ARGUMENT : Int := -5

/-- Modelled from the spec: see `OPENMC_E_OUT_OF_BOUNDS`. -/
def OPENMC_E_INVALID_TYPE : Int := -6

/-- Modelled from the spec: `verify_filter` (declared in filter.h:198, its
definition is not under src/). Per §6, each call first validates that the
filter index is allocated, returning a distinct error code otherwise. -/
def verify_filter (m : Model) (index : Int) : Option Int :=
  if 0 ≤ index ∧ index < (m.tally_filters.length : Int) then none
  else some OPENMC_E_OUT_OF_BOUNDS

/-- Return value of a C getter: the integer return code, or the
undefined-behavior outcome of writing through a null pointer. -/
inductive CRet where
  | code : Int → CRet
  | nullDeref : CRet
  deriving DecidableEq

/-- Return value of a C setter: the integer return code, or a C++
exception escaping through the `extern "C"` boundary uncaught. -/
inductive SetOutcome where
  | code : Int → SetOutcome
  | thrown : String → SetOutcome
  deriving DecidableEq

/-- Embedding of `check_zernike_filter` (filter_zernike.cpp:129-146):
index validation followed by the type-tag check. The source returns
`pair<int, Filter&>`; the reference is modelled by returning the filter
value (the call sites that copy it are noted individually). -/
def check_zernike_filter (m : Model) (index : Int) : Except Int Filter :=
  match verify_filter m index with
  | some err => Except.error err
  | none =>
    let filt := m.tally_filters.getD index.toNat default
    if filt.type_ ≠ FilterType.ZernikeFilter then
      Except.error OPENMC_E_INVALID_TYPE
    else
      Except.ok filt

/-- Embedding of `openmc_zernike_filter_get_order`
(filter_zernike.cpp:148-160): after the checks, `*order = filt.order();`
dereferences the output pointer unconditionally (there is no null check). -/
def openmc_zernike_filter_get_order (m : Model) (index : Int)
    (order_null : Bool) : CRet × Option Int :=
  match check_zernike_filter m index with
  | Except.error err => (CRet.code err, none)
  | Except.ok filt =>
    if order_null then (CRet.nullDeref, none)
    else (CRet.code 0, some filt.order_)

/-- Embedding of `openmc_zernike_filter_get_params`
(filter_zernike.cpp:162-177): after the checks, `*x`, `*y`, `*r` are
written in that order with no null checks; a null pointer among them is
dereferenced (after the earlier pointers have already been written). -/
def openmc_zernike_filter_get_params (m : Model) (index : Int)
    (x_null y_null r_null : Bool) : CRet × Option ℚ × Option ℚ × Option ℚ :=
  match check_zernike_filter m index with
  | Except.error err => (CRet.code err, none, none, none)
  | Except.ok filt =>
    if x_null then (CRet.nullDeref, none, none, none)
    else if y_null then (CRet.nullDeref, some filt.x_, none, none)
    else if r_null then (CRet.nullDeref, some filt.x_, some filt.yy_, none)
    else (CRet.code 0, some filt.x_, some filt.yy_, some filt.r_)

/-- Embedding of `openmc_zernike_filter_set_order`
(filter_zernike.cpp:179-191). The source writes
`auto filt = check_result.second;`, which copies the filter out of the
`pair<int, Filter&>` instead of binding a reference; `filt.set_order`
therefore mutates only that local copy, and the registry entry — and with
it the model state — is left unchanged even on the success path. -/
def openmc_zernike_filter_set_order (m : Model) (index : Int)
    (order : Int) : Model × SetOutcome :=
  match check_zernike_filter m index with
  | Except.error err => (m, SetOutcome.code err)
  | Except.ok filt =>
    match ZernikeFilter_set_order filt order with
    | Except.error msg => (m, SetOutcome.thrown msg)
    | Except.ok _updatedCopy => (m, SetOutcome.code 0)

/-- Embedding of `openmc_zernike_filter_set_params`
(filter_zernike.cpp:193-211). The input pointers are nullable (`Option`);
each non-null one is stored through `filt.set_x/set_y/set_r`. As in
`openmc_zernike_filter_set_order`, `filt` is an accidental local copy
(`auto`, not `auto&`), so the model state is returned unchanged. -/
def openmc_zernike_filter_set_params (m : Model) (index : Int)
    (x y r : Option ℚ) : Model × SetOutcome :=
  match check_zernike_filter m index with
  | Except.error err => (m, SetOutcome.code err)
  | Except.ok filt =>
    let f1 := match x with | some v => { filt with x_ := v } | none => filt
    let f2 := match y with | some v => { f1 with yy_ := v } | none => f1
    let _updatedCopy :=
      match r with | some v => { f2 with r_ := v } | none => f2
    (m, SetOutcome.code 0)

/-- Embedding of `openmc_energyfunc_filter_set_data`
(filter_energyfunc.cpp:93-108): index and type checks, then
`filt.set_data` through a genuine reference; the `std::runtime_error`
thrown on a non-increasing grid is not caught, so it escapes the
`extern "C"` function (no error code is returned), with the filter left
partially mutated. The size-mismatch `fatal_error` aborts the process and
is likewise surfaced as a thrown outcome, with no mutation. -/
def openmc_energyfunc_filter_set_data (m : Model) (index : Int)
    (energy y : List ℚ) : Model × SetOutcome :=
  match verify_filter m index with
  | some err => (m, SetOutcome.code err)
  | none =>
    let filt := m.tally_filters.getD index.toNat default
    if filt.type_ ≠ FilterType.EnergyFunctionFilter then
      (m, SetOutcome.code OPENMC_E_INVALID_TYPE)
    else
      let r := set_data filt energy y
      let m2 : Model := { m with
        tally_filters := m.tally_filters.set index.toNat r.1 }
      match r.2 with
      | some (DataErr.thrown msg) => (m2, SetOutcome.thrown msg)
      | some (DataErr.fatal msg) => (m2, SetOutcome.thrown msg)
      | none => (m2, SetOutcome.code 0)

/-- Embedding of `openmc_energyfunc_filter_get_energy`
(filter_energyfunc.cpp:110-125): index and type checks, then
`*energy = ...; *n = ...;` in that order with no null checks. The two
written outputs are returned as (n, energy). -/
def openmc_energyfunc_filter_get_energy (m : Model) (index : Int)
    (n_null energy_null : Bool) : CRet × Option Int × Option (List ℚ) :=
  match verify_filter m index with
  | some err => (CRet.code err, none, none)
  | none =>
    let filt := m.tally_filters.getD index.toNat default
    if filt.type_ ≠ FilterType.EnergyFunctionFilter then
      (CRet.code OPENMC_E_INVALID_TYPE, none, none)
    else if energy_null then (CRet.nullDeref, none, none)
    else if n_null then (CRet.nullDeref, none, some filt.energy_)
    else (CRet.code 0, some (filt.energy_.length : Int), some filt.energy_)

/-- Embedding of `openmc_energyfunc_filter_get_y`
(filter_energyfunc.cpp:127-142); same shape as
`openmc_energyfunc_filter_get_energy` over the `y_` array. -/
def openmc_energyfunc_filter_get_y (m : Model) (index : Int)
    (n_null y_null : Bool) : CRet × Option Int × Option (List ℚ) :=
  match verify_filter m index with
  | some err => (CRet.code err, none, none)
  | none =>
    let filt := m.tally_filters.getD index.toNat default
    if filt.type_ ≠ FilterType.EnergyFunctionFilter then
      (CRet.code OPENMC_E_INVALID_TYPE, none, none)
    else if y_null then (CRet.nullDeref, none, none)
    else if n_null then (CRet.nullDeref, none, some filt.y_)
    else (CRet.code 0, some (filt.y_.length : Int), some filt.y_)

/-- Embedding of `openmc_mesh_filter_get_mesh` (filter_mesh.cpp:67-89).
This getter does null-check its output pointer (rejecting with
`OPENMC_E_INVALID_ARGUMENT` before any other validation); but on the
success path it executes `return filt.mesh();` — the mesh index is
returned as the function's return value and `*index_mesh` is never
written. -/
def openmc_mesh_filter_get_mesh (m : Model) (index : Int)
    (index_mesh_null : Bool) : CRet × Option Int :=
  if index_mesh_null then (CRet.code OPENMC_E_INVALID_ARGUMENT, none)
  else
    match verify_filter m index with
    | some err => (CRet.code err, none)
    | none =>
      let filt := m.tally_filters.getD index.toNat default
      if filt.type_ ≠ FilterType.MeshFilter then
        (CRet.code OPENMC_E_INVALID_TYPE, none)
      else (CRet.code filt.mesh_, none)

/-- Embedding of `openmc_mesh_filter_set_mesh` (filter_mesh.cpp:91-115):
index, type and mesh-range checks, then `filt.set_mesh(index_mesh)`
through a genuine reference (`auto&`). -/
def openmc_mesh_filter_set_mesh (m : Model) (index index_mesh : Int) :
    Model × SetOutcome :=
  match verify_filter m index with
  | some err => (m, SetOutcome.code err)
  | none =>
    let filt := m.tally_filters.getD index.toNat default
    if filt.type_ ≠ FilterType.MeshFilter then
      (m, SetOutcome.code OPENMC_E_INVALID_TYPE)
    else if index_mesh < 0 ∨ m.meshes_size ≤ index_mesh then
      (m, SetOutcome.code OPENMC_E_OUT_OF_BOUNDS)
    else
      ({ m with tally_filters :=
          m.tally_filters.set index.toNat { filt with mesh_ := index_mesh } },
       SetOutcome.code 0)

/-! ## Named (include/openmc/named.h)

The owned C string `char* name_` is embedded as `Option (List Char)`:
`none` for the null pointer, otherwise the characters stored up to the
terminating NUL. `strcpy` from `std::string::c_str()` copies the source
only up to its first NUL character, so any stored list is NUL-free by
construction. -/

def nulChar : Char := Char.ofNat 0

/-- The character sequence that `strcpy` transfers from a buffer: the
prefix before the first NUL. -/
def cString (s : List Char) : List Char := s.takeWhile (fun c => c ≠ nulChar)

structure Named where
  name_ : Option (List Char)
  deriving DecidableEq

/-- Embedding of `Named::set_name` (named.h:60-69): an empty argument
frees the stored name; otherwise the buffer is (re)allocated and the
argument's `c_str()` is `strcpy`-ed into it, storing the prefix of the
argument before its first NUL character. -/
def Named.set_name (_n : Named) (name : List Char) : Named :=
  if name.isEmpty then { name_ := none }
  else { name_ := some (cString name) }

/-- Embedding of `Named::name` (named.h:71-77): the stored C string, or
the empty string for the null pointer. -/
def Named.name (n : Named) : List Char := n.name_.getD []

/-- Embedding of `Named::name_empty` (named.h:79). -/
def Named.name_empty (n : Named) : Bool := n.name_.isNone

/-- Embedding of the copy constructor `Named(const Named&)`
(named.h:36-44): `strcpy` of the source's buffer, which is NUL-free, so
the stored content is copied exactly (null stays null). -/
def Named.copy (other : Named) : Named := { name_ := other.name_ }

/-- Embedding of `Named::operator=(const Named&)` (named.h:46-56): the
target's buffer is freed, then the source's buffer is copied as in the
copy constructor (aliasing of target and source is outside this value
model). -/
def Named.assign (_target : Named) (other : Named) : Named :=
  { name_ := other.name_ }

/-! ## Concrete test fixtures (used by witnesses and counterexamples) -/

/-- Fixture: an incident-energy-function filter holding previously set
energy/y data. -/
def efFilter0 : Filter :=
  { type_ := FilterType.EnergyFunctionFilter, n_bins_ := 1,
    energy_ := [1, 2], y_ := [10, 20], x_ := 0, yy_ := 0, r_ := 0,
    order_ := 0, mesh_ := 0 }

/-- Fixture: a 2-D Zernike filter of order 5 with center (1, 2) and
radius 3. -/
def znFilter0 : Filter :=
  { type_ := FilterType.ZernikeFilter, n_bins_ := 21, energy_ := [],
    y_ := [], x_ := 1, yy_ := 2, r_ := 3, order_ := 5, mesh_ := 0 }

/-- Fixture: a small 2-D Zernike filter of order 1 centered at the origin
with radius 1. -/
def znSmall : Filter :=
  { type_ := FilterType.ZernikeFilter, n_bins_ := 3, energy_ := [],
    y_ := [], x_ := 0, yy_ := 0, r_ := 1, order_ := 1, mesh_ := 0 }

/-- Fixture: a mesh filter referencing mesh 7. -/
def meshFilter0 : Filter :=
  { type_ := FilterType.MeshFilter, n_bins_ := 0, energy_ := [], y_ := [],
    x_ := 0, yy_ := 0, r_ := 0, order_ := 0, mesh_ := 7 }

/-- Fixture: a filter registry holding the three filters above (indices
0, 1, 2) and nine allocated meshes. -/
def model0 : Model :=
  { tally_filters := [efFilter0, znFilter0, meshFilter0], meshes_size := 9 }

/-- Fixture: an incident-energy-function filter with a three-point grid. -/
def efGrid : Filter :=
  { type_ := FilterType.EnergyFunctionFilter, n_bins_ := 1,
    energy_ := [1, 2, 4], y_ := [10, 20, 40], x_ := 0, yy_ := 0, r_ := 0,
    order_ := 0, mesh_ := 0 }

end OpenMC

namespace OpenMC

/-! ## Theorems about SharedArray -/

theorem thread_safe_append_success {T : Type} (s : SharedArray T) (v : T)
    (h : s.size_ < s.capacity_) :
    s.thread_safe_append v =
      (s.size_,
       { s with size_ := s.size_ + 1
                data_ := s.data_.set s.size_.toNat (some v) }) := by
  simp [SharedArray.thread_safe_append]
  omega

theorem thread_safe_append_fail {T : Type} (s : SharedArray T) (v : T)
    (h : s.capacity_ ≤ s.size_) :
    s.thread_safe_append v = (-1, { s with size_ := s.capacity_ }) := by
  simp [SharedArray.thread_safe_append]
  omega

theorem appendAll_spec {T : Type} (vs : List T) (s : SharedArray T)
    (h0 : 0 ≤ s.size_) (hsc : s.size_ ≤ s.capacity_) :
    ((s.appendAll vs).2.size_ = min (s.size_ + vs.length) s.capacity_) ∧
    (((s.appendAll vs).1 : Int) = max (s.size_ + vs.length - s.capacity_) 0) ∧
    ((s.appendAll vs).2.capacity_ = s.capacity_) := by
  induction vs generalizing s with
  | nil =>
    simp [SharedArray.appendAll]
    omega
  | cons v vs ih =>
    by_cases h : s.size_ < s.capacity_
    · have hr := thread_safe_append_success s v h
      have hne : s.size_ ≠ -1 := by omega
      have := ih { s with size_ := s.size_ + 1
                          data_ := s.data_.set s.size_.toNat (some v) }
        (by simp; omega) (by simp; omega)
      simp only [SharedArray.appendAll, hr, hne, if_false] at *
      simp at this ⊢
      omega
    · have hr := thread_safe_append_fail s v (by omega)
      have := ih { s with size_ := s.capacity_ } (by simp; omega) (by simp)
      simp only [SharedArray.appendAll, hr, if_true] at *
      simp at this ⊢
      omega

theorem getD_replicate_none {T : Type} (n i : Nat) :
    (List.replicate n (none : Option T)).getD i none = none := by
  induction n generalizing i with
  | zero => simp
  | succ n ih => cases i <;> simp [List.replicate_succ, ih]

/-- C1: for a SharedArray of capacity c, every call to
`thread_safe_append` either reserves an index idx < c by incrementing the
size counter, stores the value at idx and returns idx, or, when the
reserved index is at or beyond c, returns the sentinel -1 and sets the
size counter to exactly c; consequently, every sequence of c + M append
calls (M > 0) starting from an empty buffer ends with size exactly c and
exactly M of the calls reporting failure. -/
theorem C1_shared_array_append_overflow :
    (∀ (T : Type) (s : SharedArray T) (v : T),
      (s.size_ < s.capacity_ →
        s.thread_safe_append v =
          (s.size_, { s with size_ := s.size_ + 1
                             data_ := s.data_.set s.size_.toNat (some v) })) ∧
      (s.capacity_ ≤ s.size_ →
        s.thread_safe_append v = (-1, { s with size_ := s.capacity_ }))) ∧
    (∀ (T : Type) (c M : Int) (vs : List T), 0 ≤ c → 0 < M →
      (vs.length : Int) = c + M →
      ((SharedArray.init T c).appendAll vs).2.size_ = c ∧
      (((SharedArray.init T c).appendAll vs).1 : Int) = M) := by
  constructor
  · intro T s v
    exact ⟨fun h => thread_safe_append_success s v h,
           fun h => thread_safe_append_fail s v h⟩
  · intro T c M vs hc hM hlen
    have h := appendAll_spec vs (SharedArray.init T c)
      (by simp [SharedArray.init]) (by simpa [SharedArray.init] using hc)
    simp only [SharedArray.init] at h ⊢
    obtain ⟨h1, h2, h3⟩ := h
    constructor
    · rw [h1]; omega
    · rw [h2]; omega

/-- Witness for C1 at capacity 2 with 3 = 2 + 1 appends. -/
theorem C1_witness :
    ((SharedArray.init Nat 2).appendAll [10, 20, 30]).2.size_ = 2 ∧
    (((SharedArray.init Nat 2).appendAll [10, 20, 30]).1 : Int) = 1 :=
  C1_shared_array_append_overflow.2 Nat 2 1 [10, 20, 30]
    (by decide) (by decide) (by decide)

/-- C9: `reserve c` with c at most the current capacity leaves the buffer
entirely unchanged (capacity never shrinks); with c greater than the
current capacity it sets the capacity to exactly c, leaves the size
unchanged, and replaces the backing storage with a fresh array, so none of
the previously stored elements remains retrievable at any index. -/
theorem C9_shared_array_reserve_spec (T : Type) (s : SharedArray T) (c : Int) :
    (c ≤ s.capacity_ → s.reserve c = s) ∧
    (s.capacity_ < c →
      (s.reserve c).capacity_ = c ∧
      (s.reserve c).size_ = s.size_ ∧
      (s.reserve c).data_ = List.replicate c.toNat none ∧
      ∀ i : Nat, (s.reserve c).data_.getD i none = none) := by
  constructor
  · intro h
    simp [SharedArray.reserve, h]
  · intro h
    have hnc : ¬ c ≤ s.capacity_ := by omega
    refine ⟨by simp [SharedArray.reserve, hnc],
            by simp [SharedArray.reserve, hnc],
            by simp [SharedArray.reserve, hnc], ?_⟩
    intro i
    simp [SharedArray.reserve, hnc, getD_replicate_none]

/-- Witness for C9: growing a one-element buffer to capacity 3 keeps its
size but drops its stored element; a non-growing reserve is a no-op. -/
theorem C9_witness :
    (SharedArray.reserve
      { data_ := [some 5], size_ := 1, capacity_ := 1 } (0 : Int) =
      { data_ := [some 5], size_ := 1, capacity_ := (1 : Int) }) ∧
    ((SharedArray.reserve
      { data_ := [some 5], size_ := 1, capacity_ := 1 } (3 : Int)).capacity_ = 3 ∧
     (SharedArray.reserve
      { data_ := [some 5], size_ := 1, capacity_ := 1 } (3 : Int)).size_ = 1 ∧
     (SharedArray.reserve
      { data_ := [some (5 : Nat)], size_ := 1, capacity_ := 1 } (3 : Int)).data_.getD 0 none = none) := by
  have h1 := (C9_shared_array_reserve_spec Nat
    { data_ := [some 5], size_ := 1, capacity_ := 1 } 0).1 (by decide)
  have h2 := (C9_shared_array_reserve_spec Nat
    { data_ := [some 5], size_ := 1, capacity_ := 1 } 3).2 (by decide)
  exact ⟨h1, h2.1, h2.2.1, h2.2.2.2 0⟩

/-! ## Lemmas about `set_data` -/

theorem set_data_loop_eq (ps : List (ℚ × ℚ)) (f : Filter) (prev : Option ℚ) :
    set_data_loop f prev ps =
      ({ f with energy_ := f.energy_ ++ (keptPairs prev ps).map Prod.fst
                y_ := f.y_ ++ (keptPairs prev ps).map Prod.snd },
       if (keptPairs prev ps).length = ps.length then none
       else some (DataErr.thrown "Energy bins must be monotonically increasing.")) := by
  induction ps generalizing f prev with
  | nil => simp [set_data_loop, keptPairs]
  | cons p rest ih =>
    obtain ⟨e, yv⟩ := p
    by_cases hv : violates_increase prev e = true
    · simp [set_data_loop, keptPairs, hv]
    · simp only [set_data_loop, keptPairs, hv, if_false, Bool.false_eq_true]
      rw [ih]
      simp [List.append_assoc]

theorem keptPairs_zip (es ys : List ℚ) (prev : Option ℚ)
    (hlen : es.length = ys.length) :
    (keptPairs prev (es.zip ys)).map Prod.fst = es.take (incFrom prev es) ∧
    (keptPairs prev (es.zip ys)).map Prod.snd = ys.take (incFrom prev es) ∧
    (keptPairs prev (es.zip ys)).length = incFrom prev es := by
  induction es generalizing ys prev with
  | nil => simp [keptPairs, incFrom]
  | cons e rest ih =>
    cases ys with
    | nil => simp at hlen
    | cons yv ysr =>
      by_cases hv : violates_increase prev e = true
      · simp [keptPairs, incFrom, hv]
      · have h := ih ysr (some e) (by simpa using hlen)
        simp [keptPairs, incFrom, hv]
        exact h

theorem incFrom_le_length (es : List ℚ) (prev : Option ℚ) :
    incFrom prev es ≤ es.length := by
  induction es generalizing prev with
  | nil => simp [incFrom]
  | cons e rest ih =>
    by_cases hv : violates_increase prev e = true
    · simp [incFrom, hv]
    · simp only [incFrom, hv, if_false, Bool.false_eq_true, List.length_cons]
      exact Nat.add_le_add_right (ih (some e)) 1

theorem incFrom_some_eq_length_iff (es : List ℚ) (p : ℚ) :
    incFrom (some p) es = es.length ↔ List.Chain' (· < ·) (p :: es) := by
  induction es generalizing p with
  | nil => simp [incFrom]
  | cons e rest ih =>
    by_cases he : e ≤ p
    · have hv : violates_increase (some p) e = true := by
        simp [violates_increase, he]
      simp only [incFrom, hv, if_true, List.length_cons, List.chain'_cons]
      constructor
      · omega
      · intro h
        exact absurd h.1 (not_lt.mpr he)
    · have hv : violates_increase (some p) e = false := by
        simp [violates_increase, he]
      simp only [incFrom, hv, Bool.false_eq_true, if_false, List.length_cons,
        List.chain'_cons]
      rw [Nat.add_right_cancel_iff, ih]
      simp [not_le.mp he]

theorem incFrom_none_eq_length_iff (es : List ℚ) :
    incFrom none es = es.length ↔ List.Chain' (· < ·) es := by
  cases es with
  | nil => simp [incFrom]
  | cons e rest =>
    have hv : violates_increase none e = false := rfl
    simp only [incFrom, hv, Bool.false_eq_true, if_false, List.length_cons]
    rw [Nat.add_right_cancel_iff]
    exact incFrom_some_eq_length_iff rest e

/-- C2 (amended): calling `set_data` with a non-increasing energy grid of
the same length as the y array fails with the descriptive thrown error
"Energy bins must be monotonically increasing."; the exception escapes the
C API uncaught (no error code is returned); and the filter is left holding
the longest strictly increasing prefix of the NEW data — the previously
set energy and y arrays are cleared, not preserved. -/
theorem C2_set_data_nonincreasing (m : Model) (index : Int)
    (energy y : List ℚ)
    (h1 : 0 ≤ index) (h2 : index < (m.tally_filters.length : Int))
    (htype : (m.tally_filters.getD index.toNat default).type_ =
      FilterType.EnergyFunctionFilter)
    (hlen : energy.length = y.length)
    (hviol : ¬ List.Chain' (· < ·) energy) :
    (set_data (m.tally_filters.getD index.toNat default) energy y).2 =
      some (DataErr.thrown "Energy bins must be monotonically increasing.") ∧
    (set_data (m.tally_filters.getD index.toNat default) energy y).1.energy_ =
      energy.take (incFrom none energy) ∧
    (set_data (m.tally_filters.getD index.toNat default) energy y).1.y_ =
      y.take (incFrom none energy) ∧
    openmc_energyfunc_filter_set_data m index energy y =
      ({ m with tally_filters := (m.tally_filters.set index.toNat
          (set_data (m.tally_filters.getD index.toNat default) energy y).1) },
       SetOutcome.thrown "Energy bins must be monotonically increasing.") := by
  set f := m.tally_filters.getD index.toNat default with hf
  have hk : incFrom none energy < energy.length := by
    have hle := incFrom_le_length energy none
    have hne : incFrom none energy ≠ energy.length := fun h =>
      hviol ((incFrom_none_eq_length_iff energy).mp h)
    omega
  have hzlen : (energy.zip y).length = energy.length := by
    simp [List.length_zip, hlen]
  have hkept := keptPairs_zip energy y none hlen
  have hsd : set_data f energy y =
      set_data_loop { f with energy_ := [], y_ := [] } none (energy.zip y) := by
    simp [set_data, hlen]
  have hcond : ¬ ((keptPairs none (energy.zip y)).length =
      energy.length ⊓ y.length) := by
    rw [hkept.2.2]
    omega
  have hres : set_data f energy y =
      ({ f with energy_ := energy.take (incFrom none energy),
                y_ := y.take (incFrom none energy) },
       some (DataErr.thrown "Energy bins must be monotonically increasing.")) := by
    rw [hsd, set_data_loop_eq]
    simp [hcond, hkept.1, hkept.2.1]
  refine ⟨by rw [hres], by rw [hres], by rw [hres], ?_⟩
  have hver : verify_filter m index = none := by
    simp [verify_filter, h1, h2]
  simp only [openmc_energyfunc_filter_set_data, hver, ← hf, htype, ne_eq,
    not_true_eq_false, if_false, hres]

/-- Counterexample for C2 as stated: the filter at index 0 of `model0`
holds energy [1, 2] and y [10, 20]; setting the non-increasing grid [1, 1]
through the C API ends in a thrown exception (not a returned error code)
and leaves the filter holding energy [1], y [5] — the previously set data
is destroyed. -/
theorem C2_counterexample :
    (openmc_energyfunc_filter_set_data model0 0 [1, 1] [5, 6]).2 =
      SetOutcome.thrown "Energy bins must be monotonically increasing." ∧
    ((openmc_energyfunc_filter_set_data model0 0 [1, 1] [5, 6]).1.tally_filters.getD
      0 default).energy_ = [1] ∧
    ((openmc_energyfunc_filter_set_data model0 0 [1, 1] [5, 6]).1.tally_filters.getD
      0 default).y_ = [5] ∧
    (model0.tally_filters.getD 0 default).energy_ = [1, 2] ∧
    (model0.tally_filters.getD 0 default).y_ = [10, 20] := by
  refine ⟨by decide, by decide, by decide, by decide, by decide⟩

/-- Witness for C2's amended theorem at the counterexample's input. -/
theorem C2_witness :
    (set_data (model0.tally_filters.getD (0 : Int).toNat default)
      [1, 1] [5, 6]).2 =
      some (DataErr.thrown "Energy bins must be monotonically increasing.") :=
  (C2_set_data_nonincreasing model0 0 [1, 1] [5, 6] (by decide) (by decide)
    (by decide) (by decide) (by norm_num [List.chain'_cons])).1

/-! ## Lemmas about strictly increasing grids and `lower_bound_index` -/

theorem getD_last_cons (a : ℚ) (tl : List ℚ) (h : tl ≠ []) :
    (a :: tl).getD ((a :: tl).length - 1) 0 = tl.getD (tl.length - 1) 0 := by
  cases tl with
  | nil => simp at h
  | cons b tl2 => simp [List.getD_cons_succ]

theorem chain_getD_strict (l : List ℚ) (hs : List.Chain' (· < ·) l)
    (i j : Nat) (hij : i < j) (hj : j < l.length) :
    l.getD i 0 < l.getD j 0 := by
  have hp : l.Pairwise (· < ·) := List.chain'_iff_pairwise.mp hs
  have h := List.pairwise_iff_getElem.mp hp i j (by omega) hj hij
  rw [List.getD_eq_getElem l 0 (by omega), List.getD_eq_getElem l 0 hj]
  exact h

theorem chain_getD_mono (l : List ℚ) (hs : List.Chain' (· < ·) l)
    (i j : Nat) (hij : i ≤ j) (hj : j < l.length) :
    l.getD i 0 ≤ l.getD j 0 := by
  rcases Nat.lt_or_ge i j with h | h
  · exact le_of_lt (chain_getD_strict l hs i j h hj)
  · have : i = j := by omega
    subst this
    exact le_refl _

theorem lower_bound_index_mem (es : List ℚ) (E : ℚ)
    (hs : List.Chain' (· < ·) es) (hl : 2 ≤ es.length)
    (hlo : es.getD 0 0 ≤ E) (hhi : E ≤ es.getD (es.length - 1) 0) :
    lower_bound_index es E + 1 < es.length ∧
    es.getD (lower_bound_index es E) 0 ≤ E ∧
    E ≤ es.getD (lower_bound_index es E + 1) 0 := by
  induction es with
  | nil => simp at hl
  | cons a tl ih =>
    cases tl with
    | nil => simp at hl
    | cons b tl2 =>
      cases tl2 with
      | nil =>
        refine ⟨by simp [lower_bound_index], ?_, ?_⟩
        · simpa [lower_bound_index] using hlo
        · simpa [lower_bound_index, List.getD_cons_succ] using hhi
      | cons c tl3 =>
        by_cases hE : E < b
        · refine ⟨?_, ?_, ?_⟩
          · simp [lower_bound_index, hE]
          · simpa [lower_bound_index, hE] using hlo
          · simp [lower_bound_index, hE, List.getD_cons_succ]
            exact le_of_lt hE
        · have hlo2 : (b :: c :: tl3).getD 0 0 ≤ E := not_lt.mp hE
          have hhi2 : E ≤ (b :: c :: tl3).getD ((b :: c :: tl3).length - 1) 0 := by
            have hrw := getD_last_cons a (b :: c :: tl3) (by simp)
            rw [← hrw]
            exact hhi
          have H := ih hs.tail (by simp) hlo2 hhi2
          refine ⟨?_, ?_, ?_⟩
          · simp only [lower_bound_index, hE, if_false, List.length_cons] at H ⊢
            omega
          · simp only [lower_bound_index, hE, if_false, List.getD_cons_succ]
            exact H.2.1
          · simp only [lower_bound_index, hE, if_false, List.getD_cons_succ]
            exact H.2.2

theorem lower_bound_index_gridpoint (es : List ℚ) (k : Nat)
    (hs : List.Chain' (· < ·) es) (hl : 2 ≤ es.length) (hk : k < es.length) :
    lower_bound_index es (es.getD k 0) = min k (es.length - 2) := by
  induction es generalizing k with
  | nil => simp at hl
  | cons a tl ih =>
    cases tl with
    | nil => simp at hl
    | cons b tl2 =>
      cases tl2 with
      | nil => simp [lower_bound_index]
      | cons c tl3 =>
        rcases k with _ | k1
        · have hab : a < b := (List.chain'_cons.mp hs).1
          simp [lower_bound_index, hab]
        · have hk1 : k1 < (b :: c :: tl3).length := by simpa using hk
          have hbE : b ≤ (b :: c :: tl3).getD k1 0 :=
            chain_getD_mono _ hs.tail 0 k1 (by omega) hk1
          rw [List.getD_cons_succ]
          simp only [lower_bound_index, not_lt.mpr hbE, if_false]
          rw [ih k1 hs.tail (by simp) hk1]
          simp only [List.length_cons]
          omega

/-- C4: for an incident-energy-function filter with strictly increasing
grid e0..en and values y0..yn, `get_all_bins` with a pre-collision energy
E in [e0, en] emits exactly one pair, with bin 0 and weight equal to the
linear interpolation of the response over the enclosing grid interval
(exactly yk at any grid point ek); with E below e0 or above en it emits
zero pairs. -/
theorem C4_energyfunc_query (f : Filter) (E : ℚ) (m0 : FilterMatch)
    (hs : List.Chain' (· < ·) f.energy_) (hl : 2 ≤ f.energy_.length)
    (hy : f.y_.length = f.energy_.length) :
    ((E < f.energy_.getD 0 0 ∨ f.energy_.getD (f.energy_.length - 1) 0 < E) →
      EnergyFunctionFilter_get_all_bins f E m0 = m0) ∧
    (f.energy_.getD 0 0 ≤ E → E ≤ f.energy_.getD (f.energy_.length - 1) 0 →
      ∃ i, i + 1 < f.energy_.length ∧
        f.energy_.getD i 0 ≤ E ∧ E ≤ f.energy_.getD (i + 1) 0 ∧
        EnergyFunctionFilter_get_all_bins f E m0 =
          m0 ++ [(0, (1 - (E - f.energy_.getD i 0) /
              (f.energy_.getD (i + 1) 0 - f.energy_.getD i 0)) *
              f.y_.getD i 0 +
            (E - f.energy_.getD i 0) /
              (f.energy_.getD (i + 1) 0 - f.energy_.getD i 0) *
              f.y_.getD (i + 1) 0)]) ∧
    (∀ k, k < f.energy_.length →
      EnergyFunctionFilter_get_all_bins f (f.energy_.getD k 0) m0 =
        m0 ++ [(0, f.y_.getD k 0)]) := by
  refine ⟨?_, ?_, ?_⟩
  · intro h
    have hnot : ¬ (f.energy_.getD 0 0 ≤ E ∧
        E ≤ f.energy_.getD (f.energy_.length - 1) 0) := by
      rcases h with h | h
      · exact fun hc => absurd hc.1 (not_le.mpr h)
      · exact fun hc => absurd hc.2 (not_le.mpr h)
    unfold EnergyFunctionFilter_get_all_bins
    rw [if_neg hnot]
  · intro hlo hhi
    obtain ⟨hlt, hle1, hle2⟩ := lower_bound_index_mem f.energy_ E hs hl hlo hhi
    refine ⟨lower_bound_index f.energy_ E, hlt, hle1, hle2, ?_⟩
    unfold EnergyFunctionFilter_get_all_bins
    rw [if_pos ⟨hlo, hhi⟩]
    rfl
  · intro k hk
    have hlo : f.energy_.getD 0 0 ≤ f.energy_.getD k 0 :=
      chain_getD_mono _ hs 0 k (by omega) hk
    have hhi : f.energy_.getD k 0 ≤ f.energy_.getD (f.energy_.length - 1) 0 :=
      chain_getD_mono _ hs k (f.energy_.length - 1) (by omega) (by omega)
    have hlbi := lower_bound_index_gridpoint f.energy_ k hs hl hk
    by_cases hklast : k + 1 < f.energy_.length
    · have hik : lower_bound_index f.energy_ (f.energy_.getD k 0) = k := by
        rw [hlbi]; omega
      unfold EnergyFunctionFilter_get_all_bins
      rw [if_pos ⟨hlo, hhi⟩]
      simp only [hik, push_back]
      simp
    · have hk1 : 1 ≤ k := by omega
      have hik : lower_bound_index f.energy_ (f.energy_.getD k 0) = k - 1 := by
        rw [hlbi]; omega
      have hsucc : k - 1 + 1 = k := by omega
      have hltk : f.energy_.getD (k - 1) 0 < f.energy_.getD k 0 :=
        chain_getD_strict _ hs (k - 1) k (by omega) hk
      have hne : f.energy_.getD k 0 - f.energy_.getD (k - 1) 0 ≠ 0 :=
        ne_of_gt (sub_pos.mpr hltk)
      unfold EnergyFunctionFilter_get_all_bins
      rw [if_pos ⟨hlo, hhi⟩]
      simp only [hik, hsucc, push_back]
      rw [div_self hne]
      norm_num

/-- Witness for C4 on the fixture grid [1, 2, 4] with values
[10, 20, 40]: querying at the last grid point 4 returns exactly
[(0, 40)]; querying at 5 (above the grid) returns no pairs. -/
theorem C4_witness :
    EnergyFunctionFilter_get_all_bins efGrid 4 [] = [(0, 40)] ∧
    EnergyFunctionFilter_get_all_bins efGrid 5 [] = [] := by
  have h4 := C4_energyfunc_query efGrid 4 []
    (by norm_num [efGrid, List.chain'_cons]) (by decide) (by decide)
  have h5 := C4_energyfunc_query efGrid 5 []
    (by norm_num [efGrid, List.chain'_cons]) (by decide) (by decide)
  constructor
  · have h := h4.2.2 2 (by decide)
    simpa [efGrid] using h
  · exact h5.1 (Or.inr (by norm_num [efGrid]))

/-! ## Lemmas about the Zernike disk test -/

theorem sqrt_div_le_one_iff (d r : ℚ) (_hd : 0 ≤ d) (hr : 0 < r) :
    Real.sqrt (d : ℝ) / (r : ℝ) ≤ 1 ↔ d ≤ r * r := by
  have hr' : (0 : ℝ) < (r : ℝ) := by exact_mod_cast hr
  rw [div_le_one hr', Real.sqrt_le_left hr'.le, pow_two]
  constructor
  · intro h
    exact_mod_cast h
  · intro h
    exact_mod_cast h

theorem one_lt_sqrt_div_iff (d r : ℚ) (hd : 0 ≤ d) (hr : 0 < r) :
    1 < Real.sqrt (d : ℝ) / (r : ℝ) ↔ r * r < d := by
  rw [← not_le, sqrt_div_le_one_iff d r hd hr, not_le]

theorem sqrt_div_lt_one_iff (d r : ℚ) (hd : 0 ≤ d) (hr : 0 < r) :
    Real.sqrt (d : ℝ) / (r : ℝ) < 1 ↔ d < r * r := by
  have hr' : (0 : ℝ) < (r : ℝ) := by exact_mod_cast hr
  constructor
  · intro h
    by_contra hc
    push_neg at hc
    have h2 : (r : ℝ) ≤ Real.sqrt (d : ℝ) := by
      calc (r : ℝ) = Real.sqrt ((r : ℝ) * (r : ℝ)) :=
            (Real.sqrt_mul_self hr'.le).symm
        _ ≤ Real.sqrt (d : ℝ) := Real.sqrt_le_sqrt (by exact_mod_cast hc)
    have h3 : (1 : ℝ) ≤ Real.sqrt (d : ℝ) / (r : ℝ) := by
      rw [le_div_iff₀ hr']
      linarith
    linarith
  · intro h
    have h2 : Real.sqrt (d : ℝ) < (r : ℝ) := by
      calc Real.sqrt (d : ℝ) < Real.sqrt ((r : ℝ) * (r : ℝ)) :=
            Real.sqrt_lt_sqrt (by exact_mod_cast hd) (by exact_mod_cast h)
        _ = (r : ℝ) := Real.sqrt_mul_self hr'.le
    rw [div_lt_one hr']
    exact h2

theorem foldl_push_back_range (zn : Nat → ℚ) (n : Nat) (m : FilterMatch) :
    (List.range n).foldl (fun acc i => push_back acc (Int.ofNat i) (zn i)) m =
      m ++ (List.range n).map (fun i => (Int.ofNat i, zn i)) := by
  induction n with
  | zero => simp
  | succ n ih =>
    rw [List.range_succ, List.foldl_append, List.map_append, ih]
    simp [push_back]

/-- C6: for a 2-D Zernike filter (and a Zernike-radial filter) and any
particle position, `get_all_bins` emits zero pairs whenever the
normalized radius sqrt((px-x)^2+(py-y)^2)/r exceeds 1, and emits exactly
n_bins pairs, with bins 0..n_bins-1 in increasing order and weights equal
to the Zernike basis values, whenever the normalized radius is strictly
below 1. -/
theorem C6_zernike_disk (f : Filter) (px py : ℚ) (zn znr : Nat → ℚ)
    (m0 : FilterMatch) (hr : 0 < f.r_) :
    (1 < Real.sqrt (((px - f.x_) * (px - f.x_) +
          (py - f.yy_) * (py - f.yy_) : ℚ) : ℝ) / (f.r_ : ℝ) →
      ZernikeFilter_get_all_bins f px py zn m0 = m0 ∧
      ZernikeRadialFilter_get_all_bins f px py znr m0 = m0) ∧
    (Real.sqrt (((px - f.x_) * (px - f.x_) +
          (py - f.yy_) * (py - f.yy_) : ℚ) : ℝ) / (f.r_ : ℝ) < 1 →
      (ZernikeFilter_get_all_bins f px py zn m0 =
         m0 ++ (List.range f.n_bins_.toNat).map (fun i => (Int.ofNat i, zn i)) ∧
       (ZernikeFilter_get_all_bins f px py zn m0).length =
         m0.length + f.n_bins_.toNat) ∧
      (ZernikeRadialFilter_get_all_bins f px py znr m0 =
         m0 ++ (List.range f.n_bins_.toNat).map (fun i => (Int.ofNat i, znr i)) ∧
       (ZernikeRadialFilter_get_all_bins f px py znr m0).length =
         m0.length + f.n_bins_.toNat)) := by
  have hd0 : 0 ≤ (px - f.x_) * (px - f.x_) + (py - f.yy_) * (py - f.yy_) :=
    add_nonneg (mul_self_nonneg _) (mul_self_nonneg _)
  constructor
  · intro h
    have hcond : ¬ ((px - f.x_) * (px - f.x_) + (py - f.yy_) * (py - f.yy_) ≤
        f.r_ * f.r_) :=
      not_le.mpr ((one_lt_sqrt_div_iff _ f.r_ hd0 hr).mp h)
    constructor
    · simp only [ZernikeFilter_get_all_bins]
      rw [if_neg hcond]
    · simp only [ZernikeRadialFilter_get_all_bins]
      rw [if_neg hcond]
  · intro h
    have hcond : (px - f.x_) * (px - f.x_) + (py - f.yy_) * (py - f.yy_) ≤
        f.r_ * f.r_ :=
      le_of_lt ((sqrt_div_lt_one_iff _ f.r_ hd0 hr).mp h)
    refine ⟨⟨?_, ?_⟩, ⟨?_, ?_⟩⟩
    · simp only [ZernikeFilter_get_all_bins]
      rw [if_pos hcond, foldl_push_back_range]
    · simp only [ZernikeFilter_get_all_bins]
      rw [if_pos hcond, foldl_push_back_range]
      simp
    · simp only [ZernikeRadialFilter_get_all_bins]
      rw [if_pos hcond, foldl_push_back_range]
    · simp only [ZernikeRadialFilter_get_all_bins]
      rw [if_pos hcond, foldl_push_back_range]
      simp

/-- Witness for C6 on `znSmall` (3 bins, radius 1, centered at the
origin): position (2, 0) lies at normalized radius 2 and matches nothing;
position (0, 0) lies at normalized radius 0 and matches all 3 bins in
order. -/
theorem C6_witness :
    ZernikeFilter_get_all_bins znSmall 2 0 (fun i => (i : ℚ)) [] = [] ∧
    ZernikeFilter_get_all_bins znSmall 0 0 (fun i => (i : ℚ)) [] =
      [(0, 0), (1, 1), (2, 2)] := by
  have h := C6_zernike_disk znSmall 2 0 (fun i => (i : ℚ)) (fun i => (i : ℚ))
    [] (by decide)
  have h0 := C6_zernike_disk znSmall 0 0 (fun i => (i : ℚ)) (fun i => (i : ℚ))
    [] (by decide)
  constructor
  · refine (h.1 ?_).1
    have h4 : (((2 - znSmall.x_) * (2 - znSmall.x_) +
        (0 - znSmall.yy_) * (0 - znSmall.yy_) : ℚ) : ℝ) = 4 := by
      norm_num [znSmall]
    rw [h4, show ((znSmall.r_ : ℚ) : ℝ) = 1 by norm_num [znSmall]]
    rw [show (4 : ℝ) = 2 ^ 2 by norm_num, Real.sqrt_sq (by norm_num : (0:ℝ) ≤ 2)]
    norm_num
  · have hin : Real.sqrt (((0 - znSmall.x_) * (0 - znSmall.x_) +
        (0 - znSmall.yy_) * (0 - znSmall.yy_) : ℚ) : ℝ) / (znSmall.r_ : ℝ) < 1 := by
      have hz : (((0 - znSmall.x_) * (0 - znSmall.x_) +
          (0 - znSmall.yy_) * (0 - znSmall.yy_) : ℚ) : ℝ) = 0 := by
        norm_num [znSmall]
      rw [hz, Real.sqrt_zero, show ((znSmall.r_ : ℚ) : ℝ) = 1 by norm_num [znSmall]]
      norm_num
    have hres := (h0.2 hin).1.1
    rw [hres]
    decide

/-- C7: after `set_order(N)` with N at least 0, a 2-D Zernike filter has
n_bins = (N+1)(N+2)/2 and a Zernike-radial filter has n_bins = N/2 + 1
(integer division), with order set to N and all other fields unchanged;
calling `set_order` with N negative fails with the descriptive
invalid-argument error before mutating anything, leaving order and n_bins
unchanged. -/
theorem C7_zernike_set_order_spec (f : Filter) (N : Int) :
    (0 ≤ N →
      ZernikeFilter_set_order f N =
        Except.ok { f with order_ := N, n_bins_ := ((N + 1) * (N + 2)) / 2 } ∧
      ZernikeRadialFilter_set_order f N =
        Except.ok { f with order_ := N, n_bins_ := N / 2 + 1 }) ∧
    (N < 0 →
      ZernikeFilter_set_order f N =
        Except.error "Zernike order must be non-negative." ∧
      ZernikeRadialFilter_set_order f N =
        Except.error "Zernike order must be non-negative.") := by
  constructor
  · intro hN
    have hnneg : ¬ (N < 0) := not_lt.mpr hN
    have h1 : Int.tdiv ((N + 1) * (N + 2)) 2 = ((N + 1) * (N + 2)) / 2 :=
      Int.tdiv_eq_ediv (by nlinarith) (by norm_num)
    have h2 : Int.tdiv N 2 = N / 2 := Int.tdiv_eq_ediv hN (by norm_num)
    constructor
    · simp [ZernikeFilter_set_order, hnneg, h1]
    · simp [ZernikeRadialFilter_set_order, ZernikeFilter_set_order, hnneg, h2]
  · intro hN
    constructor
    · simp [ZernikeFilter_set_order, hN]
    · simp [ZernikeRadialFilter_set_order, ZernikeFilter_set_order, hN]

/-- Witness for C7 at order 5 and order -1 on the `znSmall` fixture. -/
theorem C7_witness :
    ZernikeFilter_set_order znSmall 5 =
      Except.ok { znSmall with order_ := 5, n_bins_ := 21 } ∧
    ZernikeRadialFilter_set_order znSmall 5 =
      Except.ok { znSmall with order_ := 5, n_bins_ := 3 } ∧
    ZernikeFilter_set_order znSmall (-1) =
      Except.error "Zernike order must be non-negative." := by
  have hok := (C7_zernike_set_order_spec znSmall 5).1 (by decide)
  have herr := (C7_zernike_set_order_spec znSmall (-1)).2 (by decide)
  exact ⟨hok.1, hok.2, herr.1⟩

/-- Counterexample for C8 as stated: even with all four required fields
order, x, y, r present in the configuration node, creating a 2-D Zernike
filter from it is a configuration-time fatal error in this build. -/
theorem C8_counterexample :
    ZernikeFilter_from_xml default
      { has_order := true, has_x := true, has_y := true, has_r := true,
        order := 2, x := 1, y := 2, r := 3 } =
      Except.error
        "Zernike filters not yet supported on device (due to calc_zn() dynamic memory allocation)." :=
  rfl

/-- C8 (amended): creating a 2-D Zernike filter from a configuration node
always fails with the fatal error "Zernike filters not yet supported on
device" in this build, whatever fields the node provides; the code that
would read and store order, x, y, r is unreachable. -/
theorem C8_from_xml_always_fatal (f : Filter) (node : ZernikeXmlNode) :
    ZernikeFilter_from_xml f node =
      Except.error
        "Zernike filters not yet supported on device (due to calc_zn() dynamic memory allocation)." :=
  rfl

/-- C3 (code bug): `openmc_zernike_filter_set_order` binds the checked
filter with `auto filt = check_result.second;`, copying it out of the
`pair<int, Filter&>` instead of taking the reference, so `set_order`
mutates a local temporary. At index 1 of `model0` (a Zernike filter of
order 5), setting order 3 reports success (return code 0) yet leaves the
registry unchanged, and a subsequent get returns the old order 5, not 3 —
contradicting both the round-trip property and the source's own comment
"Update the filter.". -/
theorem C3_zernike_set_order_lost :
    (openmc_zernike_filter_set_order model0 1 3).2 = SetOutcome.code 0 ∧
    (openmc_zernike_filter_set_order model0 1 3).1 = model0 ∧
    openmc_zernike_filter_get_order
      (openmc_zernike_filter_set_order model0 1 3).1 1 false =
      (CRet.code 0, some 5) ∧
    (5 : Int) ≠ 3 := by
  refine ⟨by decide, by decide, by decide, by decide⟩

/-- Counterexample for C5 as stated: with a valid index and matching
type, the Zernike parameter getter called with a null x pointer and the
energy-function energy getter called with a null n pointer both reach a
null-pointer dereference instead of returning the invalid-argument
code. -/
theorem C5_null_pointer_counterexample :
    openmc_zernike_filter_get_params model0 1 true false false =
      (CRet.nullDeref, none, none, none) ∧
    openmc_energyfunc_filter_get_energy model0 0 true false =
      (CRet.nullDeref, none, some [1, 2]) ∧
    CRet.nullDeref ≠ CRet.code OPENMC_E_INVALID_ARGUMENT := by
  refine ⟨by decide, by decide, by decide⟩

/-- C5 (amended): only the mesh getter rejects a null output pointer with
the invalid-argument code (and even on success it writes nothing, handing
the mesh index back as its return value); the Zernike and energy-function
getters dereference a null output pointer once the index and type checks
pass — writing any earlier output pointers before the dereference — and
write outputs only after those checks succeed. -/
theorem C5_getters_null_handling (m : Model) (index : Int)
    (h1 : 0 ≤ index) (h2 : index < (m.tally_filters.length : Int)) :
    (openmc_mesh_filter_get_mesh m index true =
      (CRet.code OPENMC_E_INVALID_ARGUMENT, none)) ∧
    ((m.tally_filters.getD index.toNat default).type_ =
        FilterType.ZernikeFilter →
      openmc_zernike_filter_get_order m index true = (CRet.nullDeref, none) ∧
      openmc_zernike_filter_get_params m index true false false =
        (CRet.nullDeref, none, none, none) ∧
      openmc_zernike_filter_get_params m index false true false =
        (CRet.nullDeref,
         some (m.tally_filters.getD index.toNat default).x_, none, none) ∧
      openmc_zernike_filter_get_order m index false =
        (CRet.code 0, some (m.tally_filters.getD index.toNat default).order_)) ∧
    ((m.tally_filters.getD index.toNat default).type_ =
        FilterType.EnergyFunctionFilter →
      openmc_energyfunc_filter_get_energy m index false true =
        (CRet.nullDeref, none, none) ∧
      openmc_energyfunc_filter_get_energy m index true false =
        (CRet.nullDeref, none,
         some (m.tally_filters.getD index.toNat default).energy_) ∧
      openmc_energyfunc_filter_get_y m index false true =
        (CRet.nullDeref, none, none)) ∧
    ((m.tally_filters.getD index.toNat default).type_ =
        FilterType.MeshFilter →
      openmc_mesh_filter_get_mesh m index false =
        (CRet.code (m.tally_filters.getD index.toNat default).mesh_, none)) := by
  have hver : verify_filter m index = none := by
    simp [verify_filter, h1, h2]
  refine ⟨?_, ?_, ?_, ?_⟩
  · simp [openmc_mesh_filter_get_mesh]
  · intro ht
    simp only [List.getD_eq_getElem?_getD] at ht
    have hchk : check_zernike_filter m index =
        Except.ok (m.tally_filters.getD index.toNat default) := by
      simp [check_zernike_filter, hver, ht]
    exact ⟨by simp [openmc_zernike_filter_get_order, hchk],
           by simp [openmc_zernike_filter_get_params, hchk],
           by simp [openmc_zernike_filter_get_params, hchk],
           by simp [openmc_zernike_filter_get_order, hchk]⟩
  · intro ht
    simp only [List.getD_eq_getElem?_getD] at ht
    exact ⟨by simp [openmc_energyfunc_filter_get_energy, hver, ht],
           by simp [openmc_energyfunc_filter_get_energy, hver, ht],
           by simp [openmc_energyfunc_filter_get_y, hver, ht]⟩
  · intro ht
    simp only [List.getD_eq_getElem?_getD] at ht
    simp [openmc_mesh_filter_get_mesh, hver, ht]

/-- Witness for C5's amended theorem on `model0`: the mesh getter rejects
the null pointer with the invalid-argument code; the Zernike order getter
at index 1 dereferences it. -/
theorem C5_witness :
    openmc_mesh_filter_get_mesh model0 1 true =
      (CRet.code OPENMC_E_INVALID_ARGUMENT, none) ∧
    openmc_zernike_filter_get_order model0 1 true = (CRet.nullDeref, none) :=
  ⟨(C5_getters_null_handling model0 1 (by decide) (by decide)).1,
   ((C5_getters_null_handling model0 1 (by decide) (by decide)).2.1
     (by decide)).1⟩

/-- Counterexample for C10 as stated: `set_name` copies the argument with
`strcpy`, which stops at the first NUL character, so for the nonempty
string "a\x00b" the stored and returned name is "a", not the full
argument. -/
theorem C10_counterexample :
    (Named.set_name { name_ := none } ['a', nulChar, 'b']).name = ['a'] ∧
    (['a'] : List Char) ≠ ['a', nulChar, 'b'] := by
  refine ⟨by decide, by decide⟩

theorem takeWhile_ne_nul_of_not_mem (s : List Char) (h : nulChar ∉ s) :
    s.takeWhile (fun c => c ≠ nulChar) = s := by
  simp only [List.takeWhile_eq_self_iff, decide_eq_true_eq]
  intro x hx hxeq
  exact h (hxeq ▸ hx)

/-- C10 (amended): after `set_name(s)` with s nonempty, `name()` returns
exactly the prefix of s before its first NUL character — which is s
itself whenever s contains no NUL — and `name_empty()` is false; after
`set_name("")` the stored name is released, `name_empty()` is true and
`name()` returns the empty string; copy-construction and copy-assignment
yield an object whose `name()` equals the source's. -/
theorem C10_named_spec (n n2 : Named) (s : List Char) :
    (s ≠ [] → nulChar ∉ s →
      (n.set_name s).name = s ∧ (n.set_name s).name_empty = false) ∧
    (s ≠ [] →
      (n.set_name s).name = s.takeWhile (fun c => c ≠ nulChar) ∧
      (n.set_name s).name_empty = false) ∧
    ((n.set_name []).name_ = none ∧ (n.set_name []).name_empty = true ∧
      (n.set_name []).name = []) ∧
    ((Named.copy n).name = n.name ∧ (Named.assign n2 n).name = n.name) := by
  have hgen : s ≠ [] →
      (n.set_name s).name = s.takeWhile (fun c => c ≠ nulChar) ∧
      (n.set_name s).name_empty = false := by
    intro hs
    have he : s.isEmpty = false := by
      cases s with
      | nil => exact absurd rfl hs
      | cons c cs => rfl
    constructor
    · simp [Named.set_name, he, Named.name, cString]
    · simp [Named.set_name, he, Named.name_empty]
  refine ⟨?_, hgen, ?_, ?_⟩
  · intro hs hnul
    have h := hgen hs
    exact ⟨by rw [h.1, takeWhile_ne_nul_of_not_mem s hnul], h.2⟩
  · exact ⟨by simp [Named.set_name], by simp [Named.set_name, Named.name_empty],
           by simp [Named.set_name, Named.name]⟩
  · exact ⟨rfl, rfl⟩

/-- Witness for C10's amended theorem on concrete names. -/
theorem C10_witness :
    ((Named.mk none).set_name ['h', 'i']).name = ['h', 'i'] ∧
    ((Named.mk (some ['h'])).set_name []).name_empty = true ∧
    (Named.copy (Named.mk (some ['h']))).name =
      (Named.mk (some ['h'])).name := by
  have h := C10_named_spec (Named.mk none) (Named.mk none) ['h', 'i']
  have h2 := C10_named_spec (Named.mk (some ['h'])) (Named.mk none) []
  exact ⟨(h.1 (by decide) (by decide)).1, h2.2.2.1.2.1, h2.2.2.2.1⟩

end OpenMC
